import Mathlib

/-!
Verification of the metrics instrumentation layer of the canary server
(src/src/lib/metrics/metrics.hpp).

The header defines: a pure helper `methodName` deriving a short label from a
function-signature string; a `ScopedLatency` timer recording elapsed time into
a histogram exactly once; five macro-generated category timer classes; the
fixed list `latencyNames`; and a singleton `Metrics` registry with
`addCounter` / `addUpDownCounter` (inline in the header) plus `init`,
`initHistograms`, `shutdown` and the out-of-line `ScopedLatency` members,
whose definitions live in a translation unit that is not part of the sources
given here; those parts are modelled from the specification and are marked as
such in their doc comments.

Modelling conventions:
- C++ strings are `List Char` for the pure string helper, `String` for metric
  names; `std::string_view::rfind` returning `npos` is modelled by `Option`
  (with the `npos + 1` size_t wrap-around to `0` made explicit at its one use
  site); `double` is `Rat`; `int`, `int64_t` are `Int`.
- The instrument caches are association lists from names to instruments; an
  instrument stores the list of values written to it (aggregation is the
  external SDK and is out of scope).
- The meter provider is `Option Unit`: `none` models no installed provider,
  matching `Provider::GetMeterProvider() == nullptr`.
- Clock reads are passed in explicitly: an environment carries a monotonic
  (steady) and a wall (system) clock value.
-/

namespace Canary

/-- Attribute maps `std::map<std::string, std::string>`, as key-value lists. -/
abbrev Attrs := List (String × String)

/-- Opaque `opentelemetry::context::Context` propagation token. -/
abbrev Context := Nat

/-- Opaque handle standing for a `Histogram<double> &` reference. -/
abbrev HistRef := Nat

/-- A `Counter<double>` instrument: the list of `Add(value, attrs)` calls made
on it. The cumulative value is the sum of the first components. -/
structure DoubleCounter where
  adds : List (Rat × Attrs)
deriving DecidableEq, Repr

/-- An `UpDownCounter<int64_t>` instrument: the list of `Add(value, attrs)`
calls made on it. -/
structure Int64UpDownCounter where
  adds : List (Int × Attrs)
deriving DecidableEq, Repr

/-- A `Histogram<double>` instrument: the list of `Record(value, attrs, ctx)`
calls made on it. -/
structure DoubleHistogram where
  records : List (Rat × Attrs × Context)
deriving DecidableEq, Repr

/-- A meter handle, `metrics_api::Meter`, identified by name and version as in
`provider->GetMeter(meterName, otelVersion)`. -/
structure Meter where
  name : String
  version : String
deriving DecidableEq, Repr

/-- The member `meterName { "stats" }` from the source. -/
def meterName : String := "stats"

/-- The member `otelVersion { "1.2.0" }` from the source. -/
def otelVersion : String := "1.2.0"

/-- Association-list lookup, modelling `map.find(name)` on the caches. -/
def lookupA (l : List (String × α)) (k : String) : Option α :=
  match l with
  | [] => none
  | (k2, v) :: rest => if k2 = k then some v else lookupA rest k

/-- Association-list insert-or-overwrite, modelling `map[name] = instrument`. -/
def setA (l : List (String × α)) (k : String) (v : α) : List (String × α) :=
  match l with
  | [] => [(k, v)]
  | (k2, v2) :: rest => if k2 = k then (k, v) :: rest else (k2, v2) :: setA rest k v

/-- In-place update of the value stored under `k`, modelling a write through
the stored instrument pointer, `map[name]->Add(...)`. -/
def modifyA (l : List (String × α)) (k : String) (f : α → α) : List (String × α) :=
  l.map (fun p => if p.1 = k then (p.1, f p.2) else p)

/-- The state of the singleton `Metrics` registry: the installed provider, the
three instrument caches, the default context, and (for stating creation-count
properties) the log of instrument-creation calls made on the meter. The mutex
`mutex_` is represented by treating each `addCounter` / `addUpDownCounter`
call as a single atomic step: its whole body runs under `std::scoped_lock`. -/
structure MetricsState where
  provider : Option Unit
  defaultContext : Context
  latencyHistograms : List (String × DoubleHistogram)
  upDownCounters : List (String × Int64UpDownCounter)
  counters : List (String × DoubleCounter)
  createDoubleCounterCalls : List String
  createUpDownCounterCalls : List String
  createHistogramCalls : List String
deriving DecidableEq, Repr

/-- Embeds `Metrics::getMeter`: asks for the process-wide provider; if none is
installed returns an empty handle (`none`), otherwise
`provider->GetMeter(meterName, otelVersion)`. -/
def MetricsState.getMeter (st : MetricsState) : Option Meter :=
  match st.provider with
  | none => none
  | some _ => some { name := meterName, version := otelVersion }

/-- Embeds `Metrics::addCounter` (metrics.hpp lines 120-131): under the lock, return
immediately if `getMeter()` is empty; if no counter is cached for `name`,
create one via `CreateDoubleCounter` and cache it; then `Add(value, attrs)` on
the cached instrument. The creation call is also appended to the creation
log. -/
def MetricsState.addCounter (st : MetricsState) (name : String) (value : Rat)
    (attrs : Attrs) : MetricsState :=
  match st.getMeter with
  | none => st
  | some _ =>
    let st1 :=
      if (lookupA st.counters name).isNone then
        { st with
          counters := setA st.counters name { adds := [] }
          createDoubleCounterCalls := st.createDoubleCounterCalls ++ [name] }
      else st
    { st1 with
      counters := modifyA st1.counters name
        (fun c => { adds := c.adds ++ [(value, attrs)] }) }

/-- Embeds `Metrics::addUpDownCounter` (metrics.hpp lines 133-144): identical shape,
over the up-down cache with `CreateInt64UpDownCounter` and an `int` value. -/
def MetricsState.addUpDownCounter (st : MetricsState) (name : String)
    (value : Int) (attrs : Attrs) : MetricsState :=
  match st.getMeter with
  | none => st
  | some _ =>
    let st1 :=
      if (lookupA st.upDownCounters name).isNone then
        { st with
          upDownCounters := setA st.upDownCounters name { adds := [] }
          createUpDownCounterCalls := st.createUpDownCounterCalls ++ [name] }
      else st
    { st1 with
      upDownCounters := modifyA st1.upDownCounters name
        (fun c => { adds := c.adds ++ [(value, attrs)] }) }

/-- The registry right after `init` installed a provider: fresh caches, a
provider present. -/
def initState : MetricsState :=
  { provider := some ()
    defaultContext := 0
    latencyHistograms := []
    upDownCounters := []
    counters := []
    createDoubleCounterCalls := []
    createUpDownCounterCalls := []
    createHistogramCalls := [] }

/-- A registry on which no provider was ever installed (`init` not called, or
neither exporter enabled): `GetMeterProvider()` yields null. -/
def uninitState : MetricsState :=
  { provider := none
    defaultContext := 0
    latencyHistograms := []
    upDownCounters := []
    counters := []
    createDoubleCounterCalls := []
    createUpDownCounterCalls := []
    createHistogramCalls := [] }

/-- Run a sequence of `addCounter` calls, each an atomic critical section. -/
def runAddCounters (st : MetricsState) (calls : List (String × Rat × Attrs)) :
    MetricsState :=
  calls.foldl (fun s c => s.addCounter c.1 c.2.1 c.2.2) st

/-- Run a sequence of `addUpDownCounter` calls, each an atomic critical
section. -/
def runAddUpDownCounters (st : MetricsState)
    (calls : List (String × Int × Attrs)) : MetricsState :=
  calls.foldl (fun s c => s.addUpDownCounter c.1 c.2.1 c.2.2) st

/-- Cumulative value recorded on the counter instrument cached under `name`:
the sum of all `Add` values, `0` when no instrument exists. -/
def counterTotal (st : MetricsState) (name : String) : Rat :=
  match lookupA st.counters name with
  | none => 0
  | some c => (c.adds.map Prod.fst).sum

/-- Embeds `latencyNames` (metrics.hpp lines 101-107): the fixed vector of the five
predefined histogram names. -/
def latencyNames : List String :=
  ["method_latency", "lua_latency", "query_latency", "task_latency", "lock_latency"]

/-- The two clocks a construction site can read. `std::chrono::steady_clock`
is the monotonic clock; `system` stands for the wall clock, which the source
never reads. -/
structure Clocks where
  steady : Nat
  system : Nat
deriving DecidableEq, Repr

/-- The `ScopedLatency` timer value. Members in source order (metrics.hpp
lines 80-85): `context`, `histogram` (a reference, modelled as a handle),
`begin`, `attrs`, `stopped { false }`. -/
structure ScopedLatency where
  context : Context
  histogram : HistRef
  timeBegin : Nat
  attrs : Attrs
  stopped : Bool
deriving DecidableEq, Repr

/-- The in-header `ScopedLatency` constructor (metrics.hpp lines 72-74):
`begin(std::chrono::steady_clock::now()), histogram(histogram), attrs(attrs),
context(context)`. The `name` parameter is taken but not stored by this
constructor. Only the steady clock of the environment is read. -/
def mkScopedLatency (name : String) (clocks : Clocks) (histogram : HistRef)
    (attrs : Attrs) (context : Context) : ScopedLatency :=
  let _ := name
  { context := context
    histogram := histogram
    timeBegin := clocks.steady
    attrs := attrs
    stopped := false }

/-- A timer together with the record list of the histogram it references:
`recorded` is the list of samples this timer wrote into its histogram. -/
structure TimerSession where
  timer : ScopedLatency
  recorded : List (Rat × Attrs × Context)
deriving DecidableEq, Repr

/-- Modelled from the spec: `ScopedLatency::stop` is declared at
metrics.hpp line 76 but its definition (the metrics translation unit) is not
among the given sources. Per the spec: if `stopped` is already true, returns
immediately with no effect; otherwise computes `elapsed = now -
startTimestamp`, records `elapsed` into the histogram with the stored
attributes and context, and sets `stopped = true`. `now` is the steady-clock
reading at the call. -/
def TimerSession.stop (s : TimerSession) (now : Nat) : TimerSession :=
  if s.timer.stopped then s
  else
    { timer := { s.timer with stopped := true }
      recorded :=
        s.recorded ++ [((now : Rat) - (s.timer.timeBegin : Rat), s.timer.attrs, s.timer.context)] }

/-- Modelled from the spec: the `ScopedLatency` destructor (declared at
metrics.hpp line 78, defined outside the given sources). Per the spec:
end-of-scope finalization calls `stop()` if it has not already been called. -/
def TimerSession.finalize (s : TimerSession) (now : Nat) : TimerSession :=
  if s.timer.stopped then s else s.stop now

/-- Run a constructed timer through any number of explicit `stop` calls at
the given steady-clock times, then end-of-scope finalization at `endTime`. -/
def runTimer (s : TimerSession) (stops : List Nat) (endTime : Nat) : TimerSession :=
  (stops.foldl TimerSession.stop s).finalize endTime

/-- Error value for a category name outside the predefined set. -/
def unknownCategoryMsg : String := "unknown latency histogram name"

/-- Modelled from the spec: the three-argument `ScopedLatency` constructor
(declared at metrics.hpp line 71, defined outside the given sources), used by
the five category timer classes to bind a predefined histogram name and a
`scopeKey` label. Per the spec, an unknown category name must be caught by
construction-time validation against the fixed predefined set (fail fast)
rather than silently proceeding: the name is validated against
`latencyNames`; on success the histogram handle is the index of the name and
the attributes are `{ scopeKey : name }` with the registry default context. -/
def mkScopedLatencyNamed (name : String) (histogramName : String)
    (scopeKey : String) (clocks : Clocks) (defaultContext : Context) :
    Except String ScopedLatency :=
  match latencyNames.indexOf? histogramName with
  | some idx =>
      Except.ok (mkScopedLatency name clocks idx [(scopeKey, name)] defaultContext)
  | none => Except.error unknownCategoryMsg

/-- Embeds `DEFINE_LATENCY_CLASS(method, "method", "method")` (metrics.hpp line 95). -/
def method_latency (name : String) (clocks : Clocks) (ctx : Context) :
    Except String ScopedLatency :=
  mkScopedLatencyNamed name "method_latency" "method" clocks ctx

/-- Embeds `DEFINE_LATENCY_CLASS(lua, "lua", "scope")` (metrics.hpp line 96). -/
def lua_latency (name : String) (clocks : Clocks) (ctx : Context) :
    Except String ScopedLatency :=
  mkScopedLatencyNamed name "lua_latency" "scope" clocks ctx

/-- Embeds `DEFINE_LATENCY_CLASS(query, "query", "truncated_query")` (line 97). -/
def query_latency (name : String) (clocks : Clocks) (ctx : Context) :
    Except String ScopedLatency :=
  mkScopedLatencyNamed name "query_latency" "truncated_query" clocks ctx

/-- Embeds `DEFINE_LATENCY_CLASS(task, "task", "task")` (metrics.hpp line 98). -/
def task_latency (name : String) (clocks : Clocks) (ctx : Context) :
    Except String ScopedLatency :=
  mkScopedLatencyNamed name "task_latency" "task" clocks ctx

/-- Embeds `DEFINE_LATENCY_CLASS(lock, "lock", "scope")` (metrics.hpp line 99). -/
def lock_latency (name : String) (clocks : Clocks) (ctx : Context) :
    Except String ScopedLatency :=
  mkScopedLatencyNamed name "lock_latency" "scope" clocks ctx

/-- Modelled from the spec: `Metrics::initHistograms` is declared at
metrics.hpp line 115 but defined outside the given sources. Per the spec: for
each of the five predefined category names, eagerly creates (if absent) the
corresponding histogram instrument and inserts it into the histogram cache.
The name list `latencyNames` is taken from the source. -/
def MetricsState.initHistograms (st : MetricsState) : MetricsState :=
  latencyNames.foldl
    (fun s n =>
      if (lookupA s.latencyHistograms n).isNone then
        { s with
          latencyHistograms := setA s.latencyHistograms n { records := [] }
          createHistogramCalls := s.createHistogramCalls ++ [n] }
      else s)
    st

/-- Scan the indices `n-1, n-2, ..., 0` for the greatest index holding `c`.
This is the search core of `std::string_view::rfind` for a one-character
pattern; `none` models `npos` (not found). -/
def searchBelow (s : List Char) (c : Char) : Nat → Option Nat
  | 0 => none
  | n + 1 => if s.get? n = some c then some n else searchBelow s c n

/-- Embeds `rfind(c)` with no start position: the last occurrence of `c` anywhere. -/
def rfindLast (s : List Char) (c : Char) : Option Nat :=
  searchBelow s c s.length

/-- Embeds `rfind(c, pos)` with a start position: the last occurrence at an index
`≤ pos` (the position is clamped to the string length as in the C++
semantics). -/
def rfindFrom (s : List Char) (c : Char) (pos : Nat) : Option Nat :=
  searchBelow s c (min (pos + 1) s.length)

/-- Embeds `substr(pos, count)` of `std::string_view`: throws `out_of_range` when
`pos > size()` (modelled as `none`), otherwise yields at most `count`
characters from `pos`. `count = none` models a count at least as large as
the rest of the string (in `methodName` the count `npos - space` of the
no-bracket branch, which can never be smaller than `size() - pos`). -/
def substrV (s : List Char) (pos : Nat) (count : Option Nat) : Option (List Char) :=
  if pos ≤ s.length then
    some ((s.drop pos).take (count.getD (s.length - pos)))
  else none

/-- Embeds `methodName` (metrics.hpp lines 34-39):
`bracket = prettyFunction.rfind("(")`;
`space = prettyFunction.rfind(" ", bracket) + 1` — when that `rfind` yields
`npos`, the size_t increment wraps `npos + 1` to `0`, modelled by the `none`
branch; `return prettyFunction.substr(space, bracket - space)` — when
`bracket` is `npos` the count `npos - space` exceeds the remaining length, so
the whole suffix from `space` is taken (`count := none`); when `bracket` is an
index `b`, `space ≤ b` always holds (`rfind_space_le_bracket` below), so the
size_t difference is the plain `b - space`. -/
def methodName (s : List Char) : Option (List Char) :=
  let bracket := rfindLast s '('
  let space :=
    match (match bracket with
           | some b => rfindFrom s ' ' b
           | none => rfindLast s ' ') with
    | some i => i + 1
    | none => 0
  substrV s space (bracket.map (fun b => b - space))

/-- Spec-side reading, for comparison with `methodName`: the suffix of `s`
after its last space character; the whole string when it has no space. -/
def suffixAfterLastSpace (s : List Char) : List Char :=
  (s.reverse.takeWhile (fun ch => ch != ' ')).reverse

/-- Spec-side reading, for comparison with `methodName`: the substring lying
strictly between the character after the last whitespace preceding position
`b` and position `b` itself — that is, the maximal space-free suffix of the
prefix of `s` of length `b`. -/
def labelBefore (s : List Char) (b : Nat) : List Char :=
  suffixAfterLastSpace (s.take b)

/-- Spec-side reading, for comparison with `methodName`: the indices of the
open parentheses of `s` left unmatched by standard left-to-right bracket
matching, most recent first. -/
def unmatchedOpensGo (i : Nat) (cs : List Char) (stack : List Nat) : List Nat :=
  match cs with
  | [] => stack
  | c :: rest =>
      if c = '(' then unmatchedOpensGo (i + 1) rest (i :: stack)
      else if c = ')' then unmatchedOpensGo (i + 1) rest stack.tail
      else unmatchedOpensGo (i + 1) rest stack

/-- The index of the last unmatched `(` of `s`, when one exists. -/
def lastUnmatchedOpen (s : List Char) : Option Nat :=
  (unmatchedOpensGo 0 s []).head?

lemma lookupA_setA_self (l : List (String × α)) (k : String) (v : α) :
    lookupA (setA l k v) k = some v := by
  induction l with
  | nil => simp [setA, lookupA]
  | cons p rest ih =>
    obtain ⟨k1, v1⟩ := p
    by_cases h : k1 = k <;> simp [setA, lookupA, h, ih]

lemma lookupA_setA_ne (l : List (String × α)) (k k2 : String) (v : α)
    (h : k ≠ k2) : lookupA (setA l k v) k2 = lookupA l k2 := by
  induction l with
  | nil => simp [setA, lookupA, h]
  | cons p rest ih =>
    obtain ⟨k1, v1⟩ := p
    by_cases hp : k1 = k
    · subst hp
      simp [setA, lookupA, h]
    · simp [setA, lookupA, hp, ih]

lemma lookupA_modifyA_self (l : List (String × α)) (k : String) (f : α → α) :
    lookupA (modifyA l k f) k = (lookupA l k).map f := by
  induction l with
  | nil => simp [modifyA, lookupA]
  | cons p rest ih =>
    obtain ⟨k1, v1⟩ := p
    have hh : modifyA ((k1, v1) :: rest) k f
        = (if k1 = k then (k1, f v1) else (k1, v1)) :: modifyA rest k f := rfl
    rw [hh]
    by_cases h : k1 = k
    · rw [if_pos h]
      simp [lookupA, h, ih]
    · rw [if_neg h]
      simp [lookupA, h, ih]

lemma lookupA_modifyA_ne (l : List (String × α)) (k k2 : String) (f : α → α)
    (h : k ≠ k2) : lookupA (modifyA l k f) k2 = lookupA l k2 := by
  induction l with
  | nil => simp [modifyA, lookupA]
  | cons p rest ih =>
    obtain ⟨k1, v1⟩ := p
    have hh : modifyA ((k1, v1) :: rest) k f
        = (if k1 = k then (k1, f v1) else (k1, v1)) :: modifyA rest k f := rfl
    rw [hh]
    by_cases hp : k1 = k
    · subst hp
      rw [if_pos rfl]
      simp [lookupA, h, ih]
    · rw [if_neg hp]
      simp [lookupA, ih]

lemma getMeter_of_provider {st : MetricsState} (hp : st.provider = some ()) :
    st.getMeter = some { name := meterName, version := otelVersion } := by
  unfold MetricsState.getMeter
  rw [hp]

lemma addCounter_provider (st : MetricsState) (n : String) (v : Rat)
    (a : Attrs) : (st.addCounter n v a).provider = st.provider := by
  cases hm : st.getMeter <;>
    by_cases hc : (lookupA st.counters n).isNone = true <;>
    simp [MetricsState.addCounter, hm, hc]

lemma addUpDownCounter_provider (st : MetricsState) (n : String) (v : Int)
    (a : Attrs) : (st.addUpDownCounter n v a).provider = st.provider := by
  cases hm : st.getMeter <;>
    by_cases hc : (lookupA st.upDownCounters n).isNone = true <;>
    simp [MetricsState.addUpDownCounter, hm, hc]

lemma addCounter_create_log {st : MetricsState} (hp : st.provider = some ())
    (n : String) (v : Rat) (a : Attrs) :
    (st.addCounter n v a).createDoubleCounterCalls
      = st.createDoubleCounterCalls
        ++ (if (lookupA st.counters n).isNone then [n] else []) := by
  by_cases hc : (lookupA st.counters n).isNone = true <;>
    simp [MetricsState.addCounter, getMeter_of_provider hp, hc]

lemma addUpDownCounter_create_log {st : MetricsState}
    (hp : st.provider = some ()) (n : String) (v : Int) (a : Attrs) :
    (st.addUpDownCounter n v a).createUpDownCounterCalls
      = st.createUpDownCounterCalls
        ++ (if (lookupA st.upDownCounters n).isNone then [n] else []) := by
  by_cases hc : (lookupA st.upDownCounters n).isNone = true <;>
    simp [MetricsState.addUpDownCounter, getMeter_of_provider hp, hc]

lemma addCounter_lookup {st : MetricsState} (hp : st.provider = some ())
    (n : String) (v : Rat) (a : Attrs) (name : String) :
    lookupA (st.addCounter n v a).counters name
      = if name = n
        then some { adds := (match lookupA st.counters n with
                             | none => []
                             | some c => c.adds) ++ [(v, a)] }
        else lookupA st.counters name := by
  by_cases hname : name = n
  · subst hname
    cases hc : lookupA st.counters name <;>
      simp [MetricsState.addCounter, getMeter_of_provider hp, hc,
        lookupA_modifyA_self, lookupA_setA_self]
  · have hnn : n ≠ name := fun e => hname e.symm
    cases hc : lookupA st.counters n <;>
      simp [MetricsState.addCounter, getMeter_of_provider hp, hc, hname,
        lookupA_modifyA_ne _ _ _ _ hnn, lookupA_setA_ne _ _ _ _ hnn]

lemma addUpDownCounter_lookup {st : MetricsState} (hp : st.provider = some ())
    (n : String) (v : Int) (a : Attrs) (name : String) :
    lookupA (st.addUpDownCounter n v a).upDownCounters name
      = if name = n
        then some { adds := (match lookupA st.upDownCounters n with
                             | none => []
                             | some c => c.adds) ++ [(v, a)] }
        else lookupA st.upDownCounters name := by
  by_cases hname : name = n
  · subst hname
    cases hc : lookupA st.upDownCounters name <;>
      simp [MetricsState.addUpDownCounter, getMeter_of_provider hp, hc,
        lookupA_modifyA_self, lookupA_setA_self]
  · have hnn : n ≠ name := fun e => hname e.symm
    cases hc : lookupA st.upDownCounters n <;>
      simp [MetricsState.addUpDownCounter, getMeter_of_provider hp, hc, hname,
        lookupA_modifyA_ne _ _ _ _ hnn, lookupA_setA_ne _ _ _ _ hnn]

lemma addCounter_total {st : MetricsState} (hp : st.provider = some ())
    (n : String) (v : Rat) (a : Attrs) (name : String) :
    counterTotal (st.addCounter n v a) name
      = counterTotal st name + (if name = n then v else 0) := by
  unfold counterTotal
  rw [addCounter_lookup hp]
  by_cases hname : name = n
  · cases hc : lookupA st.counters n <;> subst hname <;> simp [hc]
  · simp [hname]

lemma runAddCounters_cons (st : MetricsState) (c : String × Rat × Attrs)
    (rest : List (String × Rat × Attrs)) :
    runAddCounters st (c :: rest)
      = runAddCounters (st.addCounter c.1 c.2.1 c.2.2) rest := rfl

lemma runAddUpDownCounters_cons (st : MetricsState) (c : String × Int × Attrs)
    (rest : List (String × Int × Attrs)) :
    runAddUpDownCounters st (c :: rest)
      = runAddUpDownCounters (st.addUpDownCounter c.1 c.2.1 c.2.2) rest := rfl

lemma run_createdOnce (calls : List (String × Rat × Attrs)) (name : String) :
    ∀ st : MetricsState, st.provider = some () →
    st.createDoubleCounterCalls.count name
      = (if (lookupA st.counters name).isSome then 1 else 0) →
    (runAddCounters st calls).createDoubleCounterCalls.count name
      = (if (lookupA (runAddCounters st calls).counters name).isSome
          then 1 else 0) := by
  induction calls with
  | nil => exact fun st hp hinv => hinv
  | cons c rest ih =>
    intro st hp hinv
    obtain ⟨n, v, a⟩ := c
    rw [runAddCounters_cons]
    refine ih _ (by rw [addCounter_provider]; exact hp) ?_
    rw [addCounter_create_log hp, List.count_append, addCounter_lookup hp]
    by_cases hname : name = n
    · subst hname
      cases hklook : lookupA st.counters name <;>
        simp [hklook, List.count_cons, hinv]
    · have : ¬n = name := fun e => hname e.symm
      by_cases hk : (lookupA st.counters n).isNone = true <;>
        simp [hk, hname, this, List.count_cons, hinv]

lemma run_created (calls : List (String × Rat × Attrs)) (name : String) :
    ∀ st : MetricsState, st.provider = some () →
    ((lookupA (runAddCounters st calls).counters name).isSome = true
      ↔ (lookupA st.counters name).isSome = true
        ∨ name ∈ calls.map Prod.fst) := by
  induction calls with
  | nil => intro st hp; simp [runAddCounters]
  | cons c rest ih =>
    intro st hp
    obtain ⟨n, v, a⟩ := c
    rw [runAddCounters_cons, ih _ (by rw [addCounter_provider]; exact hp),
      addCounter_lookup hp]
    by_cases hname : name = n <;> simp [hname, or_assoc]

lemma run_total (calls : List (String × Rat × Attrs)) (name : String) :
    ∀ st : MetricsState, st.provider = some () →
    counterTotal (runAddCounters st calls) name
      = counterTotal st name
        + ((calls.filter (fun c => c.1 == name)).map (fun c => c.2.1)).sum := by
  induction calls with
  | nil => intro st hp; simp [runAddCounters]
  | cons c rest ih =>
    intro st hp
    obtain ⟨n, v, a⟩ := c
    rw [runAddCounters_cons, ih _ (by rw [addCounter_provider]; exact hp),
      addCounter_total hp]
    by_cases hname : name = n
    · subst hname
      simp [List.filter_cons]
      ring
    · have : ¬n = name := fun e => hname e.symm
      simp [List.filter_cons, hname, this]

lemma run_ud_createdOnce (calls : List (String × Int × Attrs)) (name : String) :
    ∀ st : MetricsState, st.provider = some () →
    st.createUpDownCounterCalls.count name
      = (if (lookupA st.upDownCounters name).isSome then 1 else 0) →
    (runAddUpDownCounters st calls).createUpDownCounterCalls.count name
      = (if (lookupA (runAddUpDownCounters st calls).upDownCounters name).isSome
          then 1 else 0) := by
  induction calls with
  | nil => exact fun st hp hinv => hinv
  | cons c rest ih =>
    intro st hp hinv
    obtain ⟨n, v, a⟩ := c
    rw [runAddUpDownCounters_cons]
    refine ih _ (by rw [addUpDownCounter_provider]; exact hp) ?_
    rw [addUpDownCounter_create_log hp, List.count_append,
      addUpDownCounter_lookup hp]
    by_cases hname : name = n
    · subst hname
      cases hklook : lookupA st.upDownCounters name <;>
        simp [hklook, List.count_cons, hinv]
    · have : ¬n = name := fun e => hname e.symm
      by_cases hk : (lookupA st.upDownCounters n).isNone = true <;>
        simp [hk, hname, this, List.count_cons, hinv]

lemma run_ud_created (calls : List (String × Int × Attrs)) (name : String) :
    ∀ st : MetricsState, st.provider = some () →
    ((lookupA (runAddUpDownCounters st calls).upDownCounters name).isSome = true
      ↔ (lookupA st.upDownCounters name).isSome = true
        ∨ name ∈ calls.map Prod.fst) := by
  induction calls with
  | nil => intro st hp; simp [runAddUpDownCounters]
  | cons c rest ih =>
    intro st hp
    obtain ⟨n, v, a⟩ := c
    rw [runAddUpDownCounters_cons,
      ih _ (by rw [addUpDownCounter_provider]; exact hp),
      addUpDownCounter_lookup hp]
    by_cases hname : name = n <;> simp [hname, or_assoc]

lemma stop_timer_stopped (s : TimerSession) (now : Nat) :
    (s.stop now).timer.stopped = true := by
  unfold TimerSession.stop
  split
  · assumption
  · rfl

lemma stop_of_stopped {s : TimerSession} (now : Nat) (h : s.timer.stopped = true) :
    s.stop now = s := by
  unfold TimerSession.stop
  rw [if_pos h]

lemma foldl_stop_of_stopped {s : TimerSession} (stops : List Nat)
    (h : s.timer.stopped = true) : stops.foldl TimerSession.stop s = s := by
  induction stops with
  | nil => rfl
  | cons t rest ih => rw [List.foldl_cons, stop_of_stopped t h, ih]

lemma finalize_of_stopped {s : TimerSession} (now : Nat)
    (h : s.timer.stopped = true) : s.finalize now = s := by
  unfold TimerSession.finalize
  rw [if_pos h]

/-- C1: for every constructed `ScopedLatency` timer, exactly one sample is
recorded into its histogram, whatever the exit path: over any sequence of
explicit `stop()` calls followed by end-of-scope finalization, the recorded
samples are exactly one, its value is `now - startTimestamp` for the first
`stop` (the finalization time when no explicit `stop` happened), carrying the
stored attributes and context, and the timer ends with `stopped = true`. -/
theorem scoped_latency_records_exactly_once (name : String) (clocks : Clocks)
    (h : HistRef) (a : Attrs) (c : Context) (stops : List Nat) (endTime : Nat) :
    (runTimer { timer := mkScopedLatency name clocks h a c, recorded := [] }
        stops endTime).recorded
      = [(((stops.headD endTime : Nat) : Rat) - (clocks.steady : Rat), a, c)]
    ∧ (runTimer { timer := mkScopedLatency name clocks h a c, recorded := [] }
        stops endTime).timer.stopped = true := by
  cases stops with
  | nil =>
    unfold runTimer
    rw [List.foldl_nil]
    unfold TimerSession.finalize TimerSession.stop mkScopedLatency
    simp
  | cons t rest =>
    unfold runTimer
    rw [List.foldl_cons]
    have hstop : TimerSession.stop
        { timer := mkScopedLatency name clocks h a c, recorded := [] } t
        = { timer := { mkScopedLatency name clocks h a c with stopped := true }
            recorded := [((t : Rat) - (clocks.steady : Rat), a, c)] } := by
      unfold TimerSession.stop mkScopedLatency
      simp
    rw [hstop, foldl_stop_of_stopped rest rfl, finalize_of_stopped endTime rfl]
    exact ⟨rfl, rfl⟩

/-- C3: with no meter provider installed, `addCounter` and
`addUpDownCounter` return without effect: no instrument is created, nothing
is inserted into any cache, the value is discarded, and the whole registry
state is exactly as before the call. -/
theorem add_noop_without_provider (st : MetricsState) (n m : String)
    (v : Rat) (w : Int) (a b : Attrs) (h : st.getMeter = none) :
    st.addCounter n v a = st ∧ st.addUpDownCounter m w b = st := by
  unfold MetricsState.addCounter MetricsState.addUpDownCounter
  rw [h]
  exact ⟨rfl, rfl⟩

/-- Witness for C3 at the never-initialized registry with the inputs of the
spec scenario `addCounter("x", 5)`, `addUpDownCounter("y", -3)`. -/
theorem add_noop_without_provider_witness :
    uninitState.getMeter = none
    ∧ uninitState.addCounter "x" 5 [] = uninitState
    ∧ uninitState.addUpDownCounter "y" (-3) [] = uninitState :=
  ⟨rfl, (add_noop_without_provider uninitState "x" "y" 5 (-3) [] [] rfl).1,
    (add_noop_without_provider uninitState "x" "y" 5 (-3) [] [] rfl).2⟩

/-- C8: every `ScopedLatency` construction captures its start timestamp from
the monotonic (steady) clock — the stored `begin` equals the steady reading
and the constructed value is independent of the wall clock — and stores the
histogram reference, the attribute labels, and the propagation context. -/
theorem scoped_latency_ctor_captures (name : String) (clocks : Clocks)
    (h : HistRef) (a : Attrs) (c : Context) :
    (mkScopedLatency name clocks h a c).timeBegin = clocks.steady
    ∧ (mkScopedLatency name clocks h a c).histogram = h
    ∧ (mkScopedLatency name clocks h a c).attrs = a
    ∧ (mkScopedLatency name clocks h a c).context = c
    ∧ (mkScopedLatency name clocks h a c).stopped = false
    ∧ ∀ wall wall2 : Nat,
        mkScopedLatency name { steady := clocks.steady, system := wall } h a c
          = mkScopedLatency name { steady := clocks.steady, system := wall2 } h a c :=
  ⟨rfl, rfl, rfl, rfl, rfl, fun _ _ => rfl⟩

/-- C10: the instrument caches are independent: `addCounter` leaves the
up-down-counter and histogram caches unchanged, `addUpDownCounter` leaves the
counter and histogram caches unchanged, and one name can simultaneously
denote a double counter and an int64 up-down counter. -/
theorem caches_independent (st : MetricsState) (n : String) (v : Rat)
    (w : Int) (a b : Attrs) :
    (st.addCounter n v a).upDownCounters = st.upDownCounters
    ∧ (st.addCounter n v a).latencyHistograms = st.latencyHistograms
    ∧ (st.addUpDownCounter n w b).counters = st.counters
    ∧ (st.addUpDownCounter n w b).latencyHistograms = st.latencyHistograms
    ∧ (lookupA ((initState.addCounter "x" 1 []).addUpDownCounter "x" (-3) []).counters
        "x").isSome = true
    ∧ (lookupA ((initState.addCounter "x" 1 []).addUpDownCounter "x" (-3) []).upDownCounters
        "x").isSome = true := by
  refine ⟨?_, ?_, ?_, ?_, by decide, by decide⟩
  · cases hm : st.getMeter <;>
      by_cases hc : (lookupA st.counters n).isNone = true <;>
      simp [MetricsState.addCounter, hm, hc]
  · cases hm : st.getMeter <;>
      by_cases hc : (lookupA st.counters n).isNone = true <;>
      simp [MetricsState.addCounter, hm, hc]
  · cases hm : st.getMeter <;>
      by_cases hc : (lookupA st.upDownCounters n).isNone = true <;>
      simp [MetricsState.addUpDownCounter, hm, hc]
  · cases hm : st.getMeter <;>
      by_cases hc : (lookupA st.upDownCounters n).isNone = true <;>
      simp [MetricsState.addUpDownCounter, hm, hc]

/-- C6: a histogram name outside the fixed predefined set passed to the
category-timer constructor is caught by construction-time validation: the
construction fails fast with an error instead of silently proceeding. -/
theorem unknown_category_fails_fast (n hn sk : String) (clocks : Clocks)
    (ctx : Context) (h : hn ∉ latencyNames) :
    mkScopedLatencyNamed n hn sk clocks ctx = Except.error unknownCategoryMsg := by
  unfold mkScopedLatencyNamed
  have hidx : latencyNames.indexOf? hn = none := by
    refine List.indexOf?_eq_none_iff.2 (fun x hx => ?_)
    simp only [beq_iff_eq]
    exact fun e => h (e ▸ hx)
  rw [hidx]

/-- C2: for every name, at most one counter instrument (and at most one
up-down-counter instrument) is created between init and shutdown: in any
sequence of `addCounter` calls with a provider installed, the meter
creation call `CreateDoubleCounter` happens exactly once for that name —
iff the name occurs, i.e. on its first call — every call value is added to
that single cached instrument (the cumulative value is the sum of all values
passed under that name), and likewise for `addUpDownCounter` creation; in
particular `addCounter("x", 1)` then `addCounter("x", 2)` makes one creation
call and a cumulative value of 3. -/
theorem counter_instrument_created_once (calls : List (String × Rat × Attrs))
    (ucalls : List (String × Int × Attrs)) (name : String) :
    (runAddCounters initState calls).createDoubleCounterCalls.count name
      = (if name ∈ calls.map Prod.fst then 1 else 0)
    ∧ counterTotal (runAddCounters initState calls) name
      = ((calls.filter (fun c => c.1 == name)).map (fun c => c.2.1)).sum
    ∧ (runAddUpDownCounters initState ucalls).createUpDownCounterCalls.count name
      = (if name ∈ ucalls.map Prod.fst then 1 else 0)
    ∧ (runAddCounters initState
        [("x", 1, []), ("x", 2, [])]).createDoubleCounterCalls.count "x" = 1
    ∧ counterTotal (runAddCounters initState [("x", 1, []), ("x", 2, [])]) "x"
        = 3 := by
  refine ⟨?_, ?_, ?_, by decide, ?_⟩
  pick_goal 4
  · have h5 := run_total [("x", 1, []), ("x", 2, [])] "x" initState rfl
    have hz : counterTotal initState "x" = 0 := rfl
    rw [hz, zero_add] at h5
    rw [h5]
    norm_num [List.filter_cons]
  · have h0 : (lookupA initState.counters name).isSome = false := rfl
    rw [run_createdOnce calls name initState rfl rfl]
    by_cases hm : name ∈ calls.map Prod.fst
    · have hs : (lookupA (runAddCounters initState calls).counters name).isSome
          = true := (run_created calls name initState rfl).mpr (Or.inr hm)
      rw [if_pos hs, if_pos hm]
    · have hs : ¬((lookupA (runAddCounters initState calls).counters name).isSome
          = true) := by
        intro hcontra
        rcases (run_created calls name initState rfl).mp hcontra with h | h
        · rw [h0] at h
          exact Bool.false_ne_true h
        · exact hm h
      rw [if_neg hs, if_neg hm]
  · have := run_total calls name initState rfl
    have hz : counterTotal initState name = 0 := rfl
    rw [hz, zero_add] at this
    exact this
  · have h0 : (lookupA initState.upDownCounters name).isSome = false := rfl
    rw [run_ud_createdOnce ucalls name initState rfl rfl]
    by_cases hm : name ∈ ucalls.map Prod.fst
    · have hs : (lookupA (runAddUpDownCounters initState ucalls).upDownCounters
          name).isSome = true :=
        (run_ud_created ucalls name initState rfl).mpr (Or.inr hm)
      rw [if_pos hs, if_pos hm]
    · have hs : ¬((lookupA (runAddUpDownCounters initState ucalls).upDownCounters
          name).isSome = true) := by
        intro hcontra
        rcases (run_ud_created ucalls name initState rfl).mp hcontra with h | h
        · rw [h0] at h
          exact Bool.false_ne_true h
        · exact hm h
      rw [if_neg hs, if_neg hm]

/-- C7: N calls `addCounter("shared", 1)`, each an atomic critical section
because the whole body of `addCounter` runs under the registry mutex
`mutex_` (so any concurrent schedule of N threads is one of these serialized
sequences, all equal), create exactly one counter instrument for `"shared"`
and a total recorded sum of N. -/
theorem concurrent_shared_counter (N : Nat) (h : 1 ≤ N) :
    (runAddCounters initState
        (List.replicate N ("shared", (1 : Rat),
          ([] : Attrs)))).createDoubleCounterCalls.count "shared" = 1
    ∧ counterTotal (runAddCounters initState
        (List.replicate N ("shared", (1 : Rat), ([] : Attrs)))) "shared"
        = (N : Rat) := by
  constructor
  · rw [run_createdOnce _ "shared" initState rfl rfl]
    have hs : (lookupA (runAddCounters initState
        (List.replicate N ("shared", (1 : Rat),
          ([] : Attrs)))).counters "shared").isSome = true := by
      refine (run_created _ "shared" initState rfl).mpr (Or.inr ?_)
      rw [List.map_replicate]
      exact List.mem_replicate.mpr ⟨Nat.one_le_iff_ne_zero.mp h, rfl⟩
    rw [if_pos hs]
  · rw [run_total _ "shared" initState rfl]
    have hz : counterTotal initState "shared" = 0 := rfl
    rw [hz, zero_add]
    have hf : (List.replicate N ("shared", (1 : Rat), ([] : Attrs))).filter
          (fun c => c.1 == "shared")
        = List.replicate N ("shared", (1 : Rat), ([] : Attrs)) := by
      refine List.filter_eq_self.mpr (fun a ha => ?_)
      rw [List.eq_of_mem_replicate ha]
      rfl
    rw [hf, List.map_replicate, List.sum_replicate]
    simp [nsmul_eq_mul]

/-- Witness for C7 at N = 3. -/
theorem concurrent_shared_counter_witness :
    1 ≤ 3
    ∧ (runAddCounters initState
        (List.replicate 3 ("shared", (1 : Rat),
          ([] : Attrs)))).createDoubleCounterCalls.count "shared" = 1
    ∧ counterTotal (runAddCounters initState
        (List.replicate 3 ("shared", (1 : Rat), ([] : Attrs)))) "shared"
        = ((3 : Nat) : Rat) :=
  ⟨by decide, (concurrent_shared_counter 3 (by decide)).1,
    (concurrent_shared_counter 3 (by decide)).2⟩

lemma lookupA_isSome_iff_mem (l : List (String × α)) (n : String) :
    (lookupA l n).isSome = true ↔ n ∈ l.map Prod.fst := by
  induction l with
  | nil => simp [lookupA]
  | cons p rest ih =>
    obtain ⟨k1, v1⟩ := p
    rw [List.map_cons, List.mem_cons]
    by_cases h : k1 = n
    · simp [lookupA, h]
    · have hstep : lookupA ((k1, v1) :: rest) n = lookupA rest n := by
        rw [show lookupA ((k1, v1) :: rest) n
            = if k1 = n then some v1 else lookupA rest n from rfl, if_neg h]
      rw [hstep, ih]
      constructor
      · exact fun hm => Or.inr hm
      · rintro (hv | hm)
        · exact absurd hv.symm h
        · exact hm

lemma searchBelow_succ (s : List Char) (c : Char) (n : Nat) :
    searchBelow s c (n + 1)
      = if s.get? n = some c then some n else searchBelow s c n := rfl

lemma searchBelow_some {s : List Char} {c : Char} :
    ∀ {n i : Nat}, searchBelow s c n = some i → i < n ∧ s.get? i = some c := by
  intro n
  induction n with
  | zero =>
    intro i h
    simp [searchBelow] at h
  | succ m ih =>
    intro i h
    rw [searchBelow_succ] at h
    by_cases hc : s.get? m = some c
    · rw [if_pos hc] at h
      cases h
      exact ⟨Nat.lt_succ_self m, hc⟩
    · rw [if_neg hc] at h
      obtain ⟨h1, h2⟩ := ih h
      exact ⟨Nat.lt_succ_of_lt h1, h2⟩

lemma searchBelow_none {s : List Char} {c : Char} :
    ∀ {n : Nat}, searchBelow s c n = none → ∀ i, i < n → s.get? i ≠ some c := by
  intro n
  induction n with
  | zero => exact fun _ i hi => absurd hi (Nat.not_lt_zero i)
  | succ m ih =>
    intro h
    rw [searchBelow_succ] at h
    by_cases hc : s.get? m = some c
    · rw [if_pos hc] at h
      exact absurd h (Option.noConfusion)
    · rw [if_neg hc] at h
      intro i hi
      rcases Nat.lt_succ_iff_lt_or_eq.mp hi with h1 | h1
      · exact ih h i h1
      · rw [h1]
        exact hc

lemma searchBelow_append_le (u v : List Char) (c : Char) (n : Nat)
    (h : n ≤ u.length) : searchBelow (u ++ v) c n = searchBelow u c n := by
  induction n with
  | zero => rfl
  | succ m ih =>
    have hm : m < u.length := Nat.lt_of_succ_le h
    rw [searchBelow_succ, searchBelow_succ, List.get?_append hm,
      ih (Nat.le_of_lt hm)]

lemma searchBelow_concat (u : List Char) (a : Char) (c : Char) :
    searchBelow (u ++ [a]) c (u.length + 1)
      = if a = c then some u.length else searchBelow u c u.length := by
  rw [searchBelow_succ, List.get?_concat_length]
  by_cases hac : a = c
  · rw [if_pos (by rw [hac]), if_pos hac]
  · rw [if_neg (fun e => hac (Option.some.inj e)), if_neg hac,
      searchBelow_append_le u [a] c u.length (Nat.le_refl _)]

lemma drop_after_last_space (s : List Char) :
    s.drop (match searchBelow s ' ' s.length with
            | some i => i + 1
            | none => 0) = suffixAfterLastSpace s := by
  induction s using List.reverseRecOn with
  | nil => rfl
  | append_singleton u a ih =>
    have hlen : (u ++ [a]).length = u.length + 1 := by simp
    rw [hlen, searchBelow_concat]
    unfold suffixAfterLastSpace
    rw [List.reverse_append]
    by_cases hac : a = ' '
    · rw [if_pos hac, hac]
      have h1 : (u ++ [' ']).drop (u.length + 1) = [] :=
        List.drop_eq_nil_of_le (by simp)
      rw [h1]
      simp
    · rw [if_neg hac]
      have hk : (match searchBelow u ' ' u.length with
                 | some i => i + 1
                 | none => 0) ≤ u.length := by
        cases hsb : searchBelow u ' ' u.length with
        | none => exact Nat.zero_le _
        | some i => exact Nat.succ_le_of_lt (searchBelow_some hsb).1
      rw [List.drop_append_of_le_length hk, ih]
      have hp : (a != ' ') = true := by simp [hac]
      simp only [List.reverse_singleton, List.reverse_nil, List.nil_append,
        List.singleton_append, List.takeWhile_cons]
      rw [if_pos hp]
      simp only [List.reverse_cons]
      unfold suffixAfterLastSpace
      rfl

lemma substr_drop (s : List Char) (k : Nat) (hk : k ≤ s.length) :
    substrV s k none = some (s.drop k) := by
  unfold substrV
  rw [if_pos hk]
  simp [List.take_of_length_le, List.length_drop]

lemma substr_window (s : List Char) (k b : Nat) (hk : k ≤ s.length) :
    substrV s k (some (b - k)) = some ((s.drop k).take (b - k)) := by
  unfold substrV
  rw [if_pos hk]
  rfl

lemma methodName_no_bracket (s : List Char) (h : rfindLast s '(' = none) :
    methodName s = some (suffixAfterLastSpace s) := by
  have hcore := drop_after_last_space s
  simp only [methodName, h, Option.map_none']
  cases hsp : rfindLast s ' ' with
  | none =>
    unfold rfindLast at hsp
    simp only [hsp] at hcore
    rw [substr_drop s 0 (Nat.zero_le _), hcore]
  | some i =>
    unfold rfindLast at hsp
    have hi : i < s.length := (searchBelow_some hsp).1
    simp only [hsp] at hcore
    rw [substr_drop s (i + 1) (Nat.succ_le_of_lt hi), hcore]

lemma methodName_bracket_label (s : List Char) (b : Nat)
    (h : rfindLast s '(' = some b) :
    methodName s = some (labelBefore s b) := by
  have hb : b < s.length ∧ s.get? b = some '(' := searchBelow_some h
  obtain ⟨hblen, hbchar⟩ := hb
  have hlt : (s.take b).length = b := by
    rw [List.length_take]
    exact Nat.min_eq_left (Nat.le_of_lt hblen)
  have hff : rfindFrom s ' ' b = searchBelow (s.take b) ' ' b := by
    unfold rfindFrom
    have h1 : min (b + 1) s.length = b + 1 :=
      Nat.min_eq_left (Nat.succ_le_of_lt hblen)
    rw [h1, searchBelow_succ, if_neg (by rw [hbchar]; decide)]
    conv_lhs => rw [← List.take_append_drop b s]
    exact searchBelow_append_le _ _ _ _ (le_of_eq hlt.symm)
  have hcore := drop_after_last_space (s.take b)
  rw [hlt] at hcore
  simp only [methodName, h, Option.map_some']
  unfold labelBefore
  rw [hff]
  cases hsp : searchBelow (s.take b) ' ' b with
  | none =>
    simp only [hsp] at hcore ⊢
    rw [substr_window s 0 b (Nat.zero_le _), ← hcore]
    simp
  | some i =>
    have hib : i < b := (searchBelow_some hsp).1
    simp only [hsp] at hcore ⊢
    rw [substr_window s (i + 1) b
      (le_trans (Nat.succ_le_of_lt hib) (Nat.le_of_lt hblen)), ← hcore]
    rw [List.take_drop, Nat.add_sub_cancel' (Nat.succ_le_of_lt hib)]

/-- C4 counterexample: on the signature string `x y(z ()` the last unmatched
open parenthesis sits at index 3 (the one at index 6 is matched by the
closing parenthesis at index 7), and the substring strictly between the
character after the last space preceding it and that parenthesis is `y`; yet
`methodName` — which searches for the last `(` of the whole string, matched
or not — returns the empty string, refuting the claim that the result is
derived from the last unmatched `(`. -/
theorem methodName_unmatched_open_cex :
    lastUnmatchedOpen ['x', ' ', 'y', '(', 'z', ' ', '(', ')'] = some 3
    ∧ labelBefore ['x', ' ', 'y', '(', 'z', ' ', '(', ')'] 3 = ['y']
    ∧ methodName ['x', ' ', 'y', '(', 'z', ' ', '(', ')'] = some []
    ∧ methodName ['x', ' ', 'y', '(', 'z', ' ', '(', ')']
        ≠ some (labelBefore ['x', ' ', 'y', '(', 'z', ' ', '(', ')'] 3) := by
  decide

/-- C4 (amended): for every signature string containing a `(`, `methodName`
returns the substring lying strictly between the character after the last
space preceding the LAST `(` of the string (matched or not) and that `(`
itself. -/
theorem methodName_trims_to_last_bracket (s : List Char) (b : Nat)
    (h : rfindLast s '(' = some b) :
    methodName s = some (labelBefore s b) :=
  methodName_bracket_label s b h

/-- Witness for the amended C4 at the signature `void f(int)`. -/
theorem methodName_trims_to_last_bracket_witness :
    rfindLast ['v', 'o', 'i', 'd', ' ', 'f', '(', 'i', 'n', 't', ')'] '('
      = some 6
    ∧ methodName ['v', 'o', 'i', 'd', ' ', 'f', '(', 'i', 'n', 't', ')']
        = some (labelBefore
            ['v', 'o', 'i', 'd', ' ', 'f', '(', 'i', 'n', 't', ')'] 6) :=
  ⟨by decide,
    methodName_trims_to_last_bracket
      ['v', 'o', 'i', 'd', ' ', 'f', '(', 'i', 'n', 't', ')'] 6 (by decide)⟩

/-- C9: `methodName` is total: on every input the computed substring bounds
stay in range, so the `substr` call never goes out of range (the result is
always `some`); and on a string containing no `(` it returns the suffix
after the last space of the string — the whole string when there is no
space. -/
theorem methodName_total (s : List Char) :
    (∃ r, methodName s = some r)
    ∧ ('(' ∉ s → methodName s = some (suffixAfterLastSpace s)) := by
  constructor
  · cases hb : rfindLast s '(' with
    | none => exact ⟨_, methodName_no_bracket s hb⟩
    | some b => exact ⟨_, methodName_bracket_label s b hb⟩
  · intro hmem
    have hb : rfindLast s '(' = none := by
      cases hb : rfindLast s '(' with
      | none => rfl
      | some b =>
        have h2 := (searchBelow_some hb).2
        exact absurd (List.mem_iff_get?.mpr ⟨b, h2⟩) hmem
    exact methodName_no_bracket s hb

/-- Witness for C9 at a bracket-free string with one space. -/
theorem methodName_total_witness :
    ('(' ∉ ['a', 'b', ' ', 'c'])
    ∧ (∃ r, methodName ['a', 'b', ' ', 'c'] = some r)
    ∧ methodName ['a', 'b', ' ', 'c']
        = some (suffixAfterLastSpace ['a', 'b', ' ', 'c']) :=
  ⟨by decide, (methodName_total ['a', 'b', ' ', 'c']).1,
    (methodName_total ['a', 'b', ' ', 'c']).2 (by decide)⟩

/-- C5: after `initHistograms` runs on the freshly initialized registry, the
histogram cache holds exactly the five predefined histograms —
`method_latency`, `lua_latency`, `query_latency`, `task_latency`,
`lock_latency` — and none under any other name. -/
theorem init_histograms_exactly_five :
    (initState.initHistograms).latencyHistograms.map Prod.fst = latencyNames
    ∧ ∀ n : String,
        (lookupA (initState.initHistograms).latencyHistograms n).isSome = true
          ↔ n ∈ latencyNames := by
  have h1 : (initState.initHistograms).latencyHistograms.map Prod.fst
      = latencyNames := by decide
  exact ⟨h1, fun n => by rw [lookupA_isSome_iff_mem, h1]⟩

/-- Witness for C6 at a concrete unknown name. -/
theorem unknown_category_fails_fast_witness :
    "player_latency" ∉ latencyNames
    ∧ mkScopedLatencyNamed "f" "player_latency" "scope"
        { steady := 0, system := 0 } 0 = Except.error unknownCategoryMsg :=
  ⟨by decide,
    unknown_category_fails_fast "f" "player_latency" "scope"
      { steady := 0, system := 0 } 0 (by decide)⟩

end Canary
